import Mathlib

/-
Verification development for the CLUE math tutoring scheduler
(Code/model.ipynb).  The `Model` class (formulation engine) and the
`Schedule` class (assignment facade) are shallowly embedded below:
numeric quantities use `Int`/`Rat`, binary decision variables become
`Bool`-valued assignment functions, Python `assert` failures become
explicit events or `Except` errors, and the external Gurobi solver is
abstracted by a terminal status drawn from an outcome type.
-/

namespace Clue

/-- Tutoring mode code `Model.IN_PERSON`. -/
def IN_PERSON : Int := 0

/-- Tutoring mode code `Model.VIRTUAL`. -/
def VIRTUAL : Int := 1

/-- Availability code `Model.UNAVAILABLE`. -/
def UNAVAILABLE : Rat := 0

/-- Availability code `Model.NOT_PREFERRED` (value 0.5). -/
def NOT_PREFERRED : Rat := 1/2

/-- Availability code `Model.PREFERRED`. -/
def PREFERRED : Rat := 1

/-- Mode preference code `Model.PREFER_VIRTUAL`. -/
def PREFER_VIRTUAL : Int := -1

/-- Mode preference code `Model.NO_PREFERENCE`. -/
def NO_PREFERENCE : Int := 0

/-- Mode preference code `Model.PREFER_IN_PERSON`. -/
def PREFER_IN_PERSON : Int := 1

/-- Facade-level mode code `Schedule.EITHER = max(IN_PERSON, VIRTUAL) + 1`. -/
def EITHER : Int := max IN_PERSON VIRTUAL + 1

/-- Lifecycle status of the formulation engine (`Model.LOADING/OPTIMAL/INFEASIBLE`). -/
inductive MStatus where
  | loading
  | optimal
  | infeasible
deriving DecidableEq, Repr

/-- Terminal outcomes the external solver can report (gurobipy status codes,
abstracted: `optimal` is `GRB.OPTIMAL`, the rest stand for every other code). -/
inductive GStatus where
  | optimal
  | infeasible
  | unbounded
  | interrupted
  | other
deriving DecidableEq, Repr

/-- `Model.__solve`: the engine status after `model.optimize()` returns with
solver outcome `g` - `OPTIMAL` exactly when the solver proved optimality,
`INFEASIBLE` for every other outcome. -/
def solveStatus (g : GStatus) : MStatus :=
  if g = GStatus.optimal then MStatus.optimal else MStatus.infeasible

/-- The constructor arguments of `Model.__init__`, in source order. -/
structure ModelInput where
  N_T : Nat
  N_D : Nat
  lp : Int
  lv : Int
  S : List Int
  s : Int
  sp : Int
  a : List (List Rat)
  m : List Int
  fp : List Rat
  fv : List Rat
  w1 : Rat
  w2 : Rat
  w3 : Rat
  w4 : Rat

/-- Tolerance `epsilon = 10**-3` used by the fraction-sum assertion. -/
def epsilon : Rat := 1/1000

/-- The assertions of `Model.__set_decision_variables`: `N_T>0` and `N_D>0`. -/
def validDims (i : ModelInput) : Bool :=
  decide (i.N_T > 0) && decide (i.N_D > 0)

/-- The assertions of `Model.__set_constraints`: non-negative floors, `S` of
length `N_T` with non-negative entries, `a` of shape `N_T x N_D` with every
entry among the three availability codes. -/
def validConstraintArgs (i : ModelInput) : Bool :=
  decide (i.lp ≥ 0) && decide (i.lv ≥ 0) && decide (i.s ≥ 0) && decide (i.sp ≥ 0) &&
  decide (i.S.length = i.N_T) && i.S.all (fun v => decide (v ≥ 0)) &&
  decide (i.a.length = i.N_T) && i.a.all (fun row => decide (row.length = i.N_D)) &&
  i.a.all (fun row => row.all
    (fun v => decide (v = UNAVAILABLE ∨ v = NOT_PREFERRED ∨ v = PREFERRED)))

/-- The assertions of `Model.__set_objective_function`: `m` of length `N_T`
with entries among the three mode-preference codes, `fp`/`fv` of length `N_D`
with non-negative entries whose combined sum is within `epsilon` of 1, and
four non-negative weights. -/
def validObjectiveArgs (i : ModelInput) : Bool :=
  decide (i.m.length = i.N_T) &&
  i.m.all (fun v =>
    decide (v = PREFER_VIRTUAL ∨ v = NO_PREFERENCE ∨ v = PREFER_IN_PERSON)) &&
  decide (i.fp.length = i.N_D) && i.fp.all (fun v => decide (0 ≤ v)) &&
  decide (i.fv.length = i.N_D) && i.fv.all (fun v => decide (0 ≤ v)) &&
  decide (abs (1 - i.fp.sum - i.fv.sum) < epsilon) &&
  decide (i.w1 ≥ 0) && decide (i.w2 ≥ 0) && decide (i.w3 ≥ 0) && decide (i.w4 ≥ 0)

/-- All construction-time assertions of the formulation engine together. -/
def modelValid (i : ModelInput) : Bool :=
  validDims i && validConstraintArgs i && validObjectiveArgs i

/-- Observable events during `Model.__init__`, in execution order:
a failed Python assertion aborts construction, otherwise the decision
variables are created, the constraints added, the objective set, and the
program solved. -/
inductive InitEvent where
  | assertFailed
  | varsCreated
  | constraintsAdded
  | objectiveSet
  | solved
deriving DecidableEq, Repr

/-- The event trace of `Model.__init__`: `__set_decision_variables` asserts
the dimension checks before creating any variable; `__set_constraints` and
`__set_objective_function` each assert their argument checks before adding
constraints resp. the objective; then `__solve` runs. -/
def initTrace (i : ModelInput) : List InitEvent :=
  if validDims i then
    InitEvent.varsCreated ::
      (if validConstraintArgs i then
        InitEvent.constraintsAdded ::
          (if validObjectiveArgs i then
            [InitEvent.objectiveSet, InitEvent.solved]
          else [InitEvent.assertFailed])
      else [InitEvent.assertFailed])
  else [InitEvent.assertFailed]

/-- Integer value of a binary decision variable under a 0/1 assignment. -/
def indZ (b : Bool) : Int := if b then 1 else 0

/-- Rational value of a binary decision variable (used by the objective). -/
def indQ (b : Bool) : Rat := if b then 1 else 0

/-- Availability entry `a[t][d]` of a model input. -/
def aAt (i : ModelInput) (t d : Nat) : Rat := (i.a.getD t []).getD d 0

/-- Row sum `sum(self[mode,t,:])` of one mode matrix for tutor `t`. -/
def rowSum (N_D : Nat) (f : Nat → Nat → Bool) (t : Nat) : Int :=
  ∑ d ∈ Finset.range N_D, indZ (f t d)

/-- Column sum `sum(self[mode,:,d])` of one mode matrix for day `d`. -/
def colSum (N_T : Nat) (f : Nat → Nat → Bool) (d : Nat) : Int :=
  ∑ t ∈ Finset.range N_T, indZ (f t d)

/-- The hard constraints added by `Model.__set_constraints`, as a predicate on
a 0/1 assignment `(xp, xv)`, mirroring the source's two loops: per tutor the
ceiling, the total floor, the in-person floor, and per day within the tutor
loop either the forced zeros (unavailable) or the single-mode bound;
then per day the two coverage floors. -/
def modelConstraints (i : ModelInput) (xp xv : Nat → Nat → Bool) : Prop :=
  (∀ t < i.N_T,
    (rowSum i.N_D xp t + rowSum i.N_D xv t ≤ i.S.getD t 0) ∧
    (rowSum i.N_D xp t + rowSum i.N_D xv t ≥ i.s) ∧
    (rowSum i.N_D xp t ≥ i.sp) ∧
    (∀ d < i.N_D,
      if aAt i t d = UNAVAILABLE then indZ (xp t d) = 0 ∧ indZ (xv t d) = 0
      else indZ (xp t d) + indZ (xv t d) ≤ 1)) ∧
  (∀ d < i.N_D, colSum i.N_T xp d ≥ i.lp ∧ colSum i.N_T xv d ≥ i.lv)

/-- The hard constraints exactly as the specification states them: six
independent constraint families. -/
def statedConstraints (i : ModelInput) (xp xv : Nat → Nat → Bool) : Prop :=
  (∀ t < i.N_T, rowSum i.N_D xp t + rowSum i.N_D xv t ≤ i.S.getD t 0) ∧
  (∀ t < i.N_T, rowSum i.N_D xp t + rowSum i.N_D xv t ≥ i.s) ∧
  (∀ t < i.N_T, rowSum i.N_D xp t ≥ i.sp) ∧
  (∀ t < i.N_T, ∀ d < i.N_D, aAt i t d = UNAVAILABLE →
    indZ (xp t d) = 0 ∧ indZ (xv t d) = 0) ∧
  (∀ t < i.N_T, ∀ d < i.N_D, aAt i t d ≠ UNAVAILABLE →
    indZ (xp t d) + indZ (xv t d) ≤ 1) ∧
  (∀ d < i.N_D, colSum i.N_T xp d ≥ i.lp ∧ colSum i.N_T xv d ≥ i.lv)

/-- Combined indicator `x[t][d] = xp[t][d] + xv[t][d]` of the objective code. -/
def xQ (xp xv : Nat → Nat → Bool) (t d : Nat) : Rat := indQ (xp t d) + indQ (xv t d)

/-- Total scheduled shifts `X = sum of x[t][d]` (the SHIFTS term). -/
def Xtotal (i : ModelInput) (xp xv : Nat → Nat → Bool) : Rat :=
  ∑ t ∈ Finset.range i.N_T, ∑ d ∈ Finset.range i.N_D, xQ xp xv t d

/-- Rational column sum of one mode matrix for day `d`. -/
def colSumQ (N_T : Nat) (f : Nat → Nat → Bool) (d : Nat) : Rat :=
  ∑ t ∈ Finset.range N_T, indQ (f t d)

/-- The ALIGN objective term, as built in `Model.__set_objective_function`. -/
def ALIGN (i : ModelInput) (xp xv : Nat → Nat → Bool) : Rat :=
  -1 / (i.N_T : Rat) *
    ∑ d ∈ Finset.range i.N_D,
      ((Xtotal i xp xv * i.fp.getD d 0 - colSumQ i.N_T xp d) ^ 2 +
       (Xtotal i xp xv * i.fv.getD d 0 - colSumQ i.N_T xv d) ^ 2)

/-- The DAY_PREF objective term `-3*X + 4*sum a[t][d]*x[t][d]`. -/
def DAY_PREF (i : ModelInput) (xp xv : Nat → Nat → Bool) : Rat :=
  -3 * Xtotal i xp xv +
    4 * ∑ t ∈ Finset.range i.N_T, ∑ d ∈ Finset.range i.N_D, aAt i t d * xQ xp xv t d

/-- The MODE_PREF objective term `sum (xp[t][d]-xv[t][d])*m[t]`. -/
def MODE_PREF (i : ModelInput) (xp xv : Nat → Nat → Bool) : Rat :=
  ∑ t ∈ Finset.range i.N_T, ∑ d ∈ Finset.range i.N_D,
    (indQ (xp t d) - indQ (xv t d)) * (i.m.getD t 0 : Rat)

/-- The maximized expression set by `Model.__set_objective_function`:
`w1*X + w2*ALIGN + w3*DAY_PREF + w4*MODE_PREF`. -/
def objectiveExpr (i : ModelInput) (xp xv : Nat → Nat → Bool) : Rat :=
  i.w1 * Xtotal i xp xv + i.w2 * ALIGN i xp xv +
    i.w3 * DAY_PREF i xp xv + i.w4 * MODE_PREF i xp xv

/-- Arbitrarily nested Python lists over non-list leaves, the domain of
`Model.__unwrap_then_map`. -/
inductive Nested (α : Type) where
  | leaf : α → Nested α
  | list : List (Nested α) → Nested α
deriving Repr

/-- `Model.__unwrap_then_map(x, f)`: apply `f` to `x` when `x` is not a list,
otherwise recurse into every element of the list. -/
def unwrapThenMap {α β : Type} (f : α → β) : Nested α → Nested β
  | Nested.leaf v => Nested.leaf (f v)
  | Nested.list xs => Nested.list (xs.attach.map (fun y => unwrapThenMap f y.1))
termination_by x => sizeOf x
decreasing_by
  simp only [Nested.list.sizeOf_spec]
  have h := List.sizeOf_lt_of_mem y.2
  omega

/-- Nesting structure of a value, with every leaf erased. -/
def Nested.shape {α : Type} : Nested α → Nested Unit
  | Nested.leaf _ => Nested.leaf ()
  | Nested.list xs => Nested.list (xs.attach.map (fun y => Nested.shape y.1))
termination_by x => sizeOf x
decreasing_by
  simp only [Nested.list.sizeOf_spec]
  have h := List.sizeOf_lt_of_mem y.2
  omega

/-- The leaves of a nested value, in order. -/
def Nested.leaves {α : Type} : Nested α → List α
  | Nested.leaf v => [v]
  | Nested.list xs => (xs.attach.map (fun y => Nested.leaves y.1)).flatten
termination_by x => sizeOf x
decreasing_by
  simp only [Nested.list.sizeOf_spec]
  have h := List.sizeOf_lt_of_mem y.2
  omega

/-- A result cell of `Model.__getitem__`: either an unresolved decision
variable handle (while LOADING) or a resolved integer value (once OPTIMAL). -/
inductive Item where
  | hdl : Int → Nat → Nat → Item
  | intval : Int → Item
deriving DecidableEq, Repr

/-- A tutor or day selector for `Model.__getitem__`: one index or the slice
`:` meaning all of them (the two forms the code distinguishes). -/
inductive Sel where
  | one : Nat → Sel
  | all : Sel
deriving DecidableEq, Repr

/-- State of the formulation engine as seen by `__getitem__`: the dimensions,
the lifecycle status, and the solved values `sol mode t d` (meaningful only
once the status is OPTIMAL; modes are 0 = in-person, 1 = virtual). -/
structure MState where
  N_T : Nat
  N_D : Nat
  status : MStatus
  sol : Nat → Nat → Nat → Int

/-- The pure indexing part of `Model.__getitem__`: `rows = xp[tutors]` (or
`xv[tutors]`), the empty-`rows` early return, then `rows[days]` for a
selected row or `[row[days] for row in rows]` for all rows, yielding a
scalar, vector, or matrix of variable handles. -/
def MState.select (st : MState) (mode : Int) (ts ds : Sel) : Nested Item :=
  match ts with
  | Sel.one t =>
    if st.N_D = 0 then Nested.list []
    else
      match ds with
      | Sel.one d => Nested.leaf (Item.hdl mode t d)
      | Sel.all =>
          Nested.list ((List.range st.N_D).map (fun d => Nested.leaf (Item.hdl mode t d)))
  | Sel.all =>
    if st.N_T = 0 then Nested.list []
    else
      match ds with
      | Sel.one d =>
          Nested.list ((List.range st.N_T).map (fun t => Nested.leaf (Item.hdl mode t d)))
      | Sel.all =>
          Nested.list ((List.range st.N_T).map (fun t =>
            Nested.list ((List.range st.N_D).map (fun d => Nested.leaf (Item.hdl mode t d)))))

/-- The leaf transform `lambda x: int(x.X)` used once the model is OPTIMAL:
resolve a variable handle to its solved integer value. -/
def resolveItem (st : MState) : Item → Item
  | Item.hdl mode t d => Item.intval (st.sol mode.toNat t d)
  | Item.intval z => Item.intval z

/-- `Model.__getitem__`: asserts the mode is IN_PERSON or VIRTUAL (the
`Except.error` case is the failed assertion), returns `none` (Python `None`)
whenever the model is INFEASIBLE, the raw variable handles while LOADING, and
the handles resolved through `Model.__unwrap_then_map` once OPTIMAL. -/
def MState.getitem (st : MState) (mode : Int) (ts ds : Sel) :
    Except Unit (Option (Nested Item)) :=
  if mode = IN_PERSON ∨ mode = VIRTUAL then
    if st.status = MStatus.infeasible then Except.ok none
    else if st.status = MStatus.loading then Except.ok (some (st.select mode ts ds))
    else Except.ok (some (unwrapThenMap (resolveItem st) (st.select mode ts ds)))
  else Except.error ()

/-- State of the assignment facade after construction: the caller-given tutor
and day identifier lists (indices are positions in these lists) and the
enclosed engine outcome. Identifier types are abstract, as the facade only
needs decidable equality on them. -/
structure ScheduleState (τ δ : Type) where
  tutors : List τ
  days : List δ
  status : MStatus
  sol : Nat → Nat → Nat → Int

/-- The engine instance enclosed by a facade: `Model(N_T=len(tutors),
N_D=len(days), ...)`. -/
def ScheduleState.model {τ δ : Type} (sc : ScheduleState τ δ) : MState :=
  ⟨sc.tutors.length, sc.days.length, sc.status, sc.sol⟩

/-- `Schedule.schedule_found()`: true exactly when the engine status is
OPTIMAL; a total function, so it can never fail. -/
def scheduleFound {τ δ : Type} (sc : ScheduleState τ δ) : Bool :=
  decide (sc.status = MStatus.optimal)

/-- The exceptions a facade query can raise: the four validation errors of
`__validate_mode`, `__validate_tutor`, `__validate_day` and
`__validate_schedule`, plus the engine-level failed assertion of
`Model.__getitem__` (should it ever be reached). -/
inductive QErr where
  | badMode
  | badTutor
  | badDay
  | noSchedule
  | engineAssert
deriving DecidableEq, Repr

/-- The facade comparison `self.__model[mode,t,d] == 1`, propagating an
engine assertion failure and otherwise comparing the returned cell with the
integer 1 (Python: `None == 1` and any non-integer result compare false). -/
def engineEqOne {τ δ : Type} (sc : ScheduleState τ δ) (mode : Int) (t d : Nat) :
    Except QErr Bool :=
  match sc.model.getitem mode (Sel.one t) (Sel.one d) with
  | Except.error _ => Except.error QErr.engineAssert
  | Except.ok r =>
      match r with
      | some (Nested.leaf (Item.intval z)) => Except.ok (decide (z = 1))
      | _ => Except.ok false

/-- A list comprehension with a fallible filter condition, in source order. -/
def filterE {ε α : Type} (p : α → Except ε Bool) : List α → Except ε (List α)
  | [] => Except.ok []
  | x :: xs => do
      let b ← p x
      let rest ← filterE p xs
      Except.ok (if b then x :: rest else rest)

/-- The either-mode cell test `self.__model[IN_PERSON,t,d]==1 or
self.__model[VIRTUAL,t,d]==1`, with Python's short-circuiting `or`. -/
def eitherEqOne {τ δ : Type} (sc : ScheduleState τ δ) (t d : Nat) :
    Except QErr Bool := do
  let b1 ← engineEqOne sc IN_PERSON t d
  if b1 then Except.ok true else engineEqOne sc VIRTUAL t d

/-- `Schedule.check(mode, tutor, day)`: validates the mode, the tutor, the
day and the presence of an optimal schedule in source order, then compares
the stored cell(s) with 1, querying both single modes when the mode is
EITHER. -/
def check {τ δ : Type} [DecidableEq τ] [DecidableEq δ]
    (sc : ScheduleState τ δ) (mode : Int) (tutor : τ) (day : δ) :
    Except QErr Bool :=
  if ¬(mode = IN_PERSON ∨ mode = VIRTUAL ∨ mode = EITHER) then Except.error QErr.badMode
  else if tutor ∉ sc.tutors then Except.error QErr.badTutor
  else if day ∉ sc.days then Except.error QErr.badDay
  else if ¬ scheduleFound sc then Except.error QErr.noSchedule
  else if mode = IN_PERSON then
    engineEqOne sc IN_PERSON (sc.tutors.indexOf tutor) (sc.days.indexOf day)
  else if mode = VIRTUAL then
    engineEqOne sc VIRTUAL (sc.tutors.indexOf tutor) (sc.days.indexOf day)
  else
    eitherEqOne sc (sc.tutors.indexOf tutor) (sc.days.indexOf day)

/-- `Schedule.get_tutor_schedule(mode, tutor)`: validates the mode, the tutor
and the presence of an optimal schedule, then returns
`[self.days[d] for d in range(len(self.days)) if <cell(s) == 1>]`,
one comprehension per mode as in the source. -/
def getTutorSchedule {τ δ : Type} [DecidableEq τ] [Inhabited δ]
    (sc : ScheduleState τ δ) (mode : Int) (tutor : τ) :
    Except QErr (List δ) :=
  if ¬(mode = IN_PERSON ∨ mode = VIRTUAL ∨ mode = EITHER) then Except.error QErr.badMode
  else if tutor ∉ sc.tutors then Except.error QErr.badTutor
  else if ¬ scheduleFound sc then Except.error QErr.noSchedule
  else if mode = IN_PERSON then
    (filterE (fun d => engineEqOne sc IN_PERSON (sc.tutors.indexOf tutor) d)
        (List.range sc.days.length)).map
      (fun picked => picked.map (fun d => sc.days.getD d default))
  else if mode = VIRTUAL then
    (filterE (fun d => engineEqOne sc VIRTUAL (sc.tutors.indexOf tutor) d)
        (List.range sc.days.length)).map
      (fun picked => picked.map (fun d => sc.days.getD d default))
  else
    (filterE (fun d => eitherEqOne sc (sc.tutors.indexOf tutor) d)
        (List.range sc.days.length)).map
      (fun picked => picked.map (fun d => sc.days.getD d default))

/-- `Schedule.get_day_schedule(mode, day)`: validates the mode, the day and
the presence of an optimal schedule, then returns
`[self.tutors[t] for t in range(len(self.tutors)) if <cell(s) == 1>]`,
one comprehension per mode as in the source. -/
def getDaySchedule {τ δ : Type} [Inhabited τ] [DecidableEq δ]
    (sc : ScheduleState τ δ) (mode : Int) (day : δ) :
    Except QErr (List τ) :=
  if ¬(mode = IN_PERSON ∨ mode = VIRTUAL ∨ mode = EITHER) then Except.error QErr.badMode
  else if day ∉ sc.days then Except.error QErr.badDay
  else if ¬ scheduleFound sc then Except.error QErr.noSchedule
  else if mode = IN_PERSON then
    (filterE (fun t => engineEqOne sc IN_PERSON t (sc.days.indexOf day))
        (List.range sc.tutors.length)).map
      (fun picked => picked.map (fun t => sc.tutors.getD t default))
  else if mode = VIRTUAL then
    (filterE (fun t => engineEqOne sc VIRTUAL t (sc.days.indexOf day))
        (List.range sc.tutors.length)).map
      (fun picked => picked.map (fun t => sc.tutors.getD t default))
  else
    (filterE (fun t => eitherEqOne sc t (sc.days.indexOf day))
        (List.range sc.tutors.length)).map
      (fun picked => picked.map (fun t => sc.tutors.getD t default))

/-- Whether a tutor index is assigned a day index under a facade mode in the
solved result: the single-mode cell equals 1, or, for EITHER, at least one of
the two single-mode cells equals 1. -/
def assignedUnder {τ δ : Type} (sc : ScheduleState τ δ) (mode : Int) (t d : Nat) : Bool :=
  if mode = IN_PERSON then decide (sc.sol 0 t d = 1)
  else if mode = VIRTUAL then decide (sc.sol 1 t d = 1)
  else decide (sc.sol 0 t d = 1) || decide (sc.sol 1 t d = 1)

/-- The constructor arguments of `Schedule.__init__`: identifier lists and
identifier-keyed mappings (Python dictionaries, embedded as total functions),
plus the scalar floors and weights. -/
structure SchedInput (τ δ : Type) where
  tutors : List τ
  days : List δ
  min_tutors_ip : Int
  min_tutors_v : Int
  min_tutor_shifts : Int
  min_tutor_ip_shifts : Int
  max_shifts_by_tutor : τ → Int
  mode_preference : τ → Int
  availability : τ → δ → Rat
  target_ip_fractions : δ → Rat
  target_v_fractions : δ → Rat
  SHIFTS_weight : Rat
  ALIGN_weight : Rat
  DAY_PREF_weight : Rat
  MODE_PREF_weight : Rat

/-- The `Model(...)` call inside `Schedule.__init__`: project every
identifier-keyed mapping into positional arrays in the caller-given tutor and
day order. -/
def SchedInput.toModelInput {τ δ : Type} (si : SchedInput τ δ) : ModelInput where
  N_T := si.tutors.length
  N_D := si.days.length
  lp := si.min_tutors_ip
  lv := si.min_tutors_v
  S := si.tutors.map si.max_shifts_by_tutor
  s := si.min_tutor_shifts
  sp := si.min_tutor_ip_shifts
  a := si.tutors.map (fun t => si.days.map (si.availability t))
  m := si.tutors.map si.mode_preference
  fp := si.days.map si.target_ip_fractions
  fv := si.days.map si.target_v_fractions
  w1 := si.SHIFTS_weight
  w2 := si.ALIGN_weight
  w3 := si.DAY_PREF_weight
  w4 := si.MODE_PREF_weight

/-- Whether `Schedule.__init__` runs without a failed assertion: the two
duplicate-identifier checks (the index dictionaries must have as many keys as
the lists have entries), then every assertion of the enclosed `Model`
construction. -/
def scheduleConstructOk {τ δ : Type} [DecidableEq τ] [DecidableEq δ]
    (si : SchedInput τ δ) : Bool :=
  decide si.tutors.Nodup && decide si.days.Nodup && modelValid si.toModelInput

/-- Concrete engine input whose only defect is an `S` of the wrong length:
dimension checks pass, the `__set_constraints` assertions fail. -/
def i0 : ModelInput where
  N_T := 1
  N_D := 1
  lp := 0
  lv := 0
  S := []
  s := 0
  sp := 0
  a := [[1]]
  m := [0]
  fp := [1]
  fv := [0]
  w1 := 0
  w2 := 0
  w3 := 0
  w4 := 0

/-- Concrete solved facade state: two tutors, two days, tutor 0 works day 0
in-person, tutor 1 works both days virtually. -/
def s0 : ScheduleState Nat Nat where
  tutors := [0, 1]
  days := [10, 11]
  status := MStatus.optimal
  sol := fun mode t d =>
    if mode = 0 ∧ t = 0 ∧ d = 0 then 1
    else if mode = 1 ∧ t = 1 then 1
    else 0

/-- Concrete infeasible facade state over the same identifiers as `s0`. -/
def sInf : ScheduleState Nat Nat where
  tutors := [0, 1]
  days := [10, 11]
  status := MStatus.infeasible
  sol := fun _ _ _ => 0

/-- Concrete facade construction input passing every validation check. -/
def si0 : SchedInput Nat Nat where
  tutors := [0, 1]
  days := [10]
  min_tutors_ip := 0
  min_tutors_v := 0
  min_tutor_shifts := 0
  min_tutor_ip_shifts := 0
  max_shifts_by_tutor := fun _ => 1
  mode_preference := fun _ => 0
  availability := fun _ _ => 1
  target_ip_fractions := fun _ => 1/2
  target_v_fractions := fun _ => 1/2
  SHIFTS_weight := 1
  ALIGN_weight := 1
  DAY_PREF_weight := 1
  MODE_PREF_weight := 1

/-- The same construction input with a repeated tutor identifier. -/
def si1 : SchedInput Nat Nat :=
  { si0 with tutors := [0, 0] }

/-- Unfolding lemma: mapping over a nested list maps recursively over its
elements. -/
theorem unwrapThenMap_list {α β : Type} (f : α → β) (xs : List (Nested α)) :
    unwrapThenMap f (Nested.list xs) = Nested.list (xs.map (unwrapThenMap f)) := by
  rw [unwrapThenMap]
  exact congrArg Nested.list (List.attach_map_val xs (unwrapThenMap f))

/-- Unfolding lemma for the shape of a nested list. -/
theorem shape_list {α : Type} (xs : List (Nested α)) :
    Nested.shape (Nested.list xs) = Nested.list (xs.map Nested.shape) := by
  rw [Nested.shape]
  exact congrArg Nested.list (List.attach_map_val xs Nested.shape)

/-- Unfolding lemma for the leaves of a nested list. -/
theorem leaves_list {α : Type} (xs : List (Nested α)) :
    Nested.leaves (Nested.list xs) = (xs.map Nested.leaves).flatten := by
  rw [Nested.leaves]
  exact congrArg List.flatten (List.attach_map_val xs Nested.leaves)

/-- Induction principle for nested values that hands the inductive hypothesis
to every member of a list node. -/
theorem Nested.indMem {α : Type} {motive : Nested α → Prop}
    (hleaf : ∀ v, motive (Nested.leaf v))
    (hlist : ∀ xs, (∀ y ∈ xs, motive y) → motive (Nested.list xs)) :
    ∀ x : Nested α, motive x
  | Nested.leaf v => hleaf v
  | Nested.list xs => hlist xs (fun y hy => Nested.indMem hleaf hlist y)
termination_by x => sizeOf x
decreasing_by
  simp only [Nested.list.sizeOf_spec]
  have h := List.sizeOf_lt_of_mem hy
  omega

/-- Deep-mapping preserves the nesting structure. -/
theorem shape_unwrapThenMap {α β : Type} (f : α → β) (x : Nested α) :
    Nested.shape (unwrapThenMap f x) = Nested.shape x := by
  induction x using Nested.indMem with
  | hleaf v => simp [unwrapThenMap, Nested.shape]
  | hlist xs ih =>
    rw [unwrapThenMap_list, shape_list, shape_list, List.map_map]
    exact congrArg Nested.list (List.map_congr_left (fun y hy => ih y hy))

/-- Deep-mapping maps every leaf through the given function, in order. -/
theorem leaves_unwrapThenMap {α β : Type} (f : α → β) (x : Nested α) :
    Nested.leaves (unwrapThenMap f x) = (Nested.leaves x).map f := by
  induction x using Nested.indMem with
  | hleaf v => simp [unwrapThenMap, Nested.leaves]
  | hlist xs ih =>
    rw [unwrapThenMap_list, leaves_list, leaves_list, List.map_map, List.map_flatten,
      List.map_map]
    exact congrArg List.flatten (List.map_congr_left (fun y hy => ih y hy))

/-- Deep-mapping with the identity leaf function is the identity. -/
theorem unwrapThenMap_id {α : Type} (x : Nested α) :
    unwrapThenMap (fun v => v) x = x := by
  induction x using Nested.indMem with
  | hleaf v => simp [unwrapThenMap]
  | hlist xs ih =>
    rw [unwrapThenMap_list]
    refine congrArg Nested.list ?_
    calc xs.map (unwrapThenMap fun v => v)
        = xs.map (fun y => y) := List.map_congr_left (fun y hy => ih y hy)
      _ = xs := by simp

/-- C9: for every nested-list value `x` and leaf function `f`,
`Model.__unwrap_then_map(x, f)` keeps the nesting structure of `x`, replaces
every non-list leaf `v` by `f(v)`, and with the identity leaf function it
returns a structurally equal copy of `x`. -/
theorem unwrap_then_map_spec {α β : Type} (f : α → β) (x : Nested α) :
    Nested.shape (unwrapThenMap f x) = Nested.shape x ∧
    Nested.leaves (unwrapThenMap f x) = (Nested.leaves x).map f ∧
    unwrapThenMap (fun v => v) x = x :=
  ⟨shape_unwrapThenMap f x, leaves_unwrapThenMap f x, unwrapThenMap_id x⟩

/-- C1: for every construction input, the constraint set that
`Model.__set_constraints` imposes on a 0/1 assignment is exactly the stated
one: per tutor the shift ceiling `S[t]`, the total floor `s` and the
in-person floor `sp`; per (tutor, day) the forced zeros when unavailable and
the at-most-one-mode bound otherwise; per day the coverage floors `lp` and
`lv`. -/
theorem constraints_as_stated (i : ModelInput) (xp xv : Nat → Nat → Bool) :
    modelConstraints i xp xv ↔ statedConstraints i xp xv := by
  constructor
  · intro h
    refine ⟨fun t ht => (h.1 t ht).1, fun t ht => (h.1 t ht).2.1,
      fun t ht => (h.1 t ht).2.2.1, fun t ht d hd hav => ?_,
      fun t ht d hd hav => ?_, h.2⟩
    · have hh := (h.1 t ht).2.2.2 d hd
      rwa [if_pos hav] at hh
    · have hh := (h.1 t ht).2.2.2 d hd
      rwa [if_neg hav] at hh
  · intro h
    refine ⟨fun t ht => ⟨h.1 t ht, h.2.1 t ht, h.2.2.1 t ht, fun d hd => ?_⟩,
      h.2.2.2.2.2⟩
    by_cases hav : aAt i t d = UNAVAILABLE
    · rw [if_pos hav]
      exact h.2.2.2.1 t ht d hd hav
    · rw [if_neg hav]
      exact h.2.2.2.2.1 t ht d hd hav

/-- C2: the maximized expression built by `Model.__set_objective_function`
equals `w1*X + w2*ALIGN + w3*DAY_PREF + w4*MODE_PREF` with `X` the sum of
`xp[t][d]+xv[t][d]` over all tutors and days,
`ALIGN = -(1/N_T) * sum_d ((X*fp[d] - sum_t xp[t][d])^2 + (X*fv[d] -
sum_t xv[t][d])^2)`, `DAY_PREF = -3*X + 4*sum a[t][d]*(xp[t][d]+xv[t][d])`
and `MODE_PREF = sum (xp[t][d]-xv[t][d])*m[t]`. -/
theorem objective_formula (i : ModelInput) (xp xv : Nat → Nat → Bool) :
    objectiveExpr i xp xv =
      i.w1 * (∑ t ∈ Finset.range i.N_T, ∑ d ∈ Finset.range i.N_D,
          (indQ (xp t d) + indQ (xv t d)))
      + i.w2 * (-(1 / (i.N_T : Rat)) * ∑ d ∈ Finset.range i.N_D,
          (((∑ t ∈ Finset.range i.N_T, ∑ e ∈ Finset.range i.N_D,
              (indQ (xp t e) + indQ (xv t e))) * i.fp.getD d 0
            - ∑ t ∈ Finset.range i.N_T, indQ (xp t d)) ^ 2 +
           ((∑ t ∈ Finset.range i.N_T, ∑ e ∈ Finset.range i.N_D,
              (indQ (xp t e) + indQ (xv t e))) * i.fv.getD d 0
            - ∑ t ∈ Finset.range i.N_T, indQ (xv t d)) ^ 2))
      + i.w3 * (-3 * (∑ t ∈ Finset.range i.N_T, ∑ d ∈ Finset.range i.N_D,
            (indQ (xp t d) + indQ (xv t d)))
          + 4 * ∑ t ∈ Finset.range i.N_T, ∑ d ∈ Finset.range i.N_D,
              aAt i t d * (indQ (xp t d) + indQ (xv t d)))
      + i.w4 * (∑ t ∈ Finset.range i.N_T, ∑ d ∈ Finset.range i.N_D,
          (indQ (xp t d) - indQ (xv t d)) * (i.m.getD t 0 : Rat)) := by
  simp only [objectiveExpr, Xtotal, ALIGN, DAY_PREF, MODE_PREF, xQ, colSumQ]
  ring

/-- C3 counterexample: the concrete input `i0` violates a shape constraint
(`S` has the wrong length), yet its construction trace creates the decision
variables before the failing assertion, refuting "fails ... before any
decision variable is created". -/
theorem construction_order_cex :
    modelValid i0 = false ∧
      initTrace i0 = [InitEvent.varsCreated, InitEvent.assertFailed] := by
  constructor
  · decide
  · decide

/-- C3 amended: for every construction input violating a shape, range or sum
constraint, construction halts with a failed assertion and never reaches the
solve step; the tutor/day-count positivity checks run before the decision
variables are created, but the remaining shape/range/sum checks run only
after the decision variables exist. -/
theorem construction_asserts_before_solve (i : ModelInput)
    (h : modelValid i = false) :
    (initTrace i).getLast? = some InitEvent.assertFailed ∧
    InitEvent.solved ∉ initTrace i ∧
    (validDims i = false → InitEvent.varsCreated ∉ initTrace i) ∧
    (validDims i = true → (initTrace i).head? = some InitEvent.varsCreated) := by
  unfold initTrace
  cases hvd : validDims i with
  | false => simp
  | true =>
    cases hvc : validConstraintArgs i with
    | false => simp
    | true =>
      cases hvo : validObjectiveArgs i with
      | false => simp
      | true =>
        rw [modelValid, hvd, hvc, hvo] at h
        simp at h

/-- C3 amended, witnessed at the concrete invalid input `i0`. -/
theorem construction_asserts_before_solve_witness :
    modelValid i0 = false ∧
      (initTrace i0).getLast? = some InitEvent.assertFailed ∧
      InitEvent.solved ∉ initTrace i0 :=
  ⟨by decide, (construction_asserts_before_solve i0 (by decide)).1,
    (construction_asserts_before_solve i0 (by decide)).2.1⟩

/-- The indexer succeeds exactly on the two engine modes. -/
theorem getitem_isOk_iff (st : MState) (mode : Int) (ts ds : Sel) :
    (st.getitem mode ts ds).isOk = true ↔ (mode = IN_PERSON ∨ mode = VIRTUAL) := by
  by_cases h : mode = IN_PERSON ∨ mode = VIRTUAL
  · rw [MState.getitem, if_pos h]
    refine ⟨fun _ => h, fun _ => ?_⟩
    by_cases h1 : st.status = MStatus.infeasible
    · rw [if_pos h1]
      rfl
    · rw [if_neg h1]
      by_cases h2 : st.status = MStatus.loading
      · rw [if_pos h2]
        rfl
      · rw [if_neg h2]
        rfl
  · rw [MState.getitem, if_neg h]
    simp [Except.isOk, Except.toBool, h]

/-- While INFEASIBLE the indexer returns `None` for every valid mode and
selector pair. -/
theorem getitem_infeasible (st : MState) (mode : Int)
    (hm : mode = IN_PERSON ∨ mode = VIRTUAL)
    (hst : st.status = MStatus.infeasible) (ts ds : Sel) :
    st.getitem mode ts ds = Except.ok none := by
  rw [MState.getitem, if_pos hm, if_pos hst]

/-- A facade cell comparison with a valid engine mode never fails. -/
theorem engineEqOne_isOk {τ δ : Type} (sc : ScheduleState τ δ) (mode : Int)
    (hm : mode = IN_PERSON ∨ mode = VIRTUAL) (t d : Nat) :
    ∃ b, engineEqOne sc mode t d = Except.ok b := by
  have hok := (getitem_isOk_iff sc.model mode (Sel.one t) (Sel.one d)).2 hm
  unfold engineEqOne
  cases hE : sc.model.getitem mode (Sel.one t) (Sel.one d) with
  | error e =>
    rw [hE] at hok
    simp [Except.isOk, Except.toBool] at hok
  | ok r =>
    match r with
    | none => exact ⟨false, rfl⟩
    | some (Nested.leaf (Item.hdl m u v)) => exact ⟨false, rfl⟩
    | some (Nested.leaf (Item.intval z)) => exact ⟨decide (z = 1), rfl⟩
    | some (Nested.list xs) => exact ⟨false, rfl⟩

/-- Once the schedule is OPTIMAL and at least one day exists, the facade cell
comparison reads the solved value. -/
theorem engineEqOne_optimal {τ δ : Type} (sc : ScheduleState τ δ) (mode : Int)
    (hm : mode = IN_PERSON ∨ mode = VIRTUAL)
    (hst : sc.status = MStatus.optimal) (hlen : 0 < sc.days.length) (t d : Nat) :
    engineEqOne sc mode t d = Except.ok (decide (sc.sol mode.toNat t d = 1)) := by
  have hmodel : sc.model.status = MStatus.optimal := hst
  have hlen2 : sc.model.N_D ≠ 0 := Nat.pos_iff_ne_zero.mp hlen
  rw [engineEqOne]
  rw [MState.getitem, if_pos hm, if_neg (by rw [hmodel]; decide),
    if_neg (by rw [hmodel]; decide)]
  rw [MState.select, if_neg hlen2]
  rw [unwrapThenMap, resolveItem]
  rfl

/-- A list comprehension whose condition always succeeds is a plain filter. -/
theorem filterE_congr {ε α : Type} (p : α → Except ε Bool) (q : α → Bool)
    (l : List α) (h : ∀ x ∈ l, p x = Except.ok (q x)) :
    filterE p l = Except.ok (l.filter q) := by
  induction l with
  | nil => rfl
  | cons x xs ih =>
    rw [filterE, h x (List.mem_cons_self x xs),
      ih (fun y hy => h y (List.mem_cons_of_mem x hy))]
    rw [List.filter_cons]
    cases hq : q x <;> rfl

/-- Unfolding lemma: binding an `ok` value in the `Except` monad applies the
continuation. -/
theorem bindOk {ε α β : Type} (a : α) (f : α → Except ε β) :
    (Except.ok a : Except ε α) >>= f = f a := rfl

/-- `assignedUnder` at the in-person mode. -/
theorem assignedUnder_ip {τ δ : Type} (sc : ScheduleState τ δ) (t d : Nat) :
    assignedUnder sc IN_PERSON t d = decide (sc.sol 0 t d = 1) := by
  rw [assignedUnder, if_pos rfl]

/-- `assignedUnder` at the virtual mode. -/
theorem assignedUnder_v {τ δ : Type} (sc : ScheduleState τ δ) (t d : Nat) :
    assignedUnder sc VIRTUAL t d = decide (sc.sol 1 t d = 1) := by
  rw [assignedUnder, if_neg (by decide), if_pos rfl]

/-- `assignedUnder` at the either mode. -/
theorem assignedUnder_e {τ δ : Type} (sc : ScheduleState τ δ) (t d : Nat) :
    assignedUnder sc EITHER t d =
      (decide (sc.sol 0 t d = 1) || decide (sc.sol 1 t d = 1)) := by
  rw [assignedUnder, if_neg (by decide), if_neg (by decide)]

/-- The either-mode cell test also never fails. -/
theorem eitherEqOne_isOk {τ δ : Type} (sc : ScheduleState τ δ) (t d : Nat) :
    ∃ b, eitherEqOne sc t d = Except.ok b := by
  obtain ⟨b1, h1⟩ := engineEqOne_isOk sc IN_PERSON (Or.inl rfl) t d
  obtain ⟨b2, h2⟩ := engineEqOne_isOk sc VIRTUAL (Or.inr rfl) t d
  rw [eitherEqOne, h1, bindOk]
  cases b1 with
  | true => exact ⟨true, rfl⟩
  | false =>
    refine ⟨b2, ?_⟩
    rw [if_neg (by decide)]
    exact h2

/-- Once OPTIMAL with at least one day, the either-mode cell test is the
disjunction of the two solved single-mode cells. -/
theorem eitherEqOne_optimal {τ δ : Type} (sc : ScheduleState τ δ)
    (hst : sc.status = MStatus.optimal) (hlen : 0 < sc.days.length) (t d : Nat) :
    eitherEqOne sc t d =
      Except.ok (decide (sc.sol 0 t d = 1) || decide (sc.sol 1 t d = 1)) := by
  rw [eitherEqOne, engineEqOne_optimal sc IN_PERSON (Or.inl rfl) hst hlen,
    engineEqOne_optimal sc VIRTUAL (Or.inr rfl) hst hlen]
  have e0 : IN_PERSON.toNat = 0 := rfl
  have e1 : VIRTUAL.toNat = 1 := rfl
  rw [e0, e1, bindOk]
  cases hu : decide (sc.sol 0 t d = 1)
  · rw [if_neg (by decide), Bool.false_or]
  · rw [if_pos rfl, Bool.true_or]

/-- Under passing validations, `check` returns the solved assignment bit for
the requested mode. -/
theorem check_eq_of_valid {τ δ : Type} [DecidableEq τ] [DecidableEq δ]
    (sc : ScheduleState τ δ) (mode : Int)
    (hm : mode = IN_PERSON ∨ mode = VIRTUAL ∨ mode = EITHER)
    (tutor : τ) (ht : tutor ∈ sc.tutors) (day : δ) (hd : day ∈ sc.days)
    (hst : sc.status = MStatus.optimal) :
    check sc mode tutor day =
      Except.ok (assignedUnder sc mode (sc.tutors.indexOf tutor) (sc.days.indexOf day)) := by
  have hlen : 0 < sc.days.length := List.length_pos_of_mem hd
  have hsf : scheduleFound sc = true := by simp [scheduleFound, hst]
  rw [check, if_neg (by simp [hm]), if_neg (by simp [ht]), if_neg (by simp [hd]),
    if_neg (by simp [hsf])]
  rcases hm with h | h | h
  · subst h
    rw [if_pos rfl, engineEqOne_optimal sc IN_PERSON (Or.inl rfl) hst hlen,
      assignedUnder_ip]
    rfl
  · subst h
    rw [if_neg (by decide), if_pos rfl,
      engineEqOne_optimal sc VIRTUAL (Or.inr rfl) hst hlen, assignedUnder_v]
    rfl
  · subst h
    rw [if_neg (by decide), if_neg (by decide), eitherEqOne_optimal sc hst hlen,
      assignedUnder_e]

/-- Under passing validations, `get_tutor_schedule` is the ordinary filtered
comprehension over the day indices. -/
theorem getTutorSchedule_eq {τ δ : Type} [DecidableEq τ] [DecidableEq δ] [Inhabited δ]
    (sc : ScheduleState τ δ) (mode : Int)
    (hm : mode = IN_PERSON ∨ mode = VIRTUAL ∨ mode = EITHER)
    (tutor : τ) (ht : tutor ∈ sc.tutors) (hst : sc.status = MStatus.optimal) :
    getTutorSchedule sc mode tutor = Except.ok
      (((List.range sc.days.length).filter
          (fun d => assignedUnder sc mode (sc.tutors.indexOf tutor) d)).map
        (fun d => sc.days.getD d default)) := by
  have hsf : scheduleFound sc = true := by simp [scheduleFound, hst]
  rw [getTutorSchedule, if_neg (by simp [hm]), if_neg (by simp [ht]),
    if_neg (by simp [hsf])]
  rcases hm with h | h | h
  · subst h
    rw [if_pos rfl,
      filterE_congr _ (fun d => assignedUnder sc IN_PERSON (sc.tutors.indexOf tutor) d) _
        (fun d hdm => ?_)]
    · rfl
    · have hlen : 0 < sc.days.length := lt_of_le_of_lt (Nat.zero_le d) (List.mem_range.mp hdm)
      show engineEqOne sc IN_PERSON (sc.tutors.indexOf tutor) d =
        Except.ok (assignedUnder sc IN_PERSON (sc.tutors.indexOf tutor) d)
      rw [engineEqOne_optimal sc IN_PERSON (Or.inl rfl) hst hlen, assignedUnder_ip]
      rfl
  · subst h
    rw [if_neg (by decide), if_pos rfl,
      filterE_congr _ (fun d => assignedUnder sc VIRTUAL (sc.tutors.indexOf tutor) d) _
        (fun d hdm => ?_)]
    · rfl
    · have hlen : 0 < sc.days.length := lt_of_le_of_lt (Nat.zero_le d) (List.mem_range.mp hdm)
      show engineEqOne sc VIRTUAL (sc.tutors.indexOf tutor) d =
        Except.ok (assignedUnder sc VIRTUAL (sc.tutors.indexOf tutor) d)
      rw [engineEqOne_optimal sc VIRTUAL (Or.inr rfl) hst hlen, assignedUnder_v]
      rfl
  · subst h
    rw [if_neg (by decide), if_neg (by decide),
      filterE_congr _ (fun d => assignedUnder sc EITHER (sc.tutors.indexOf tutor) d) _
        (fun d hdm => ?_)]
    · rfl
    · have hlen : 0 < sc.days.length := lt_of_le_of_lt (Nat.zero_le d) (List.mem_range.mp hdm)
      show eitherEqOne sc (sc.tutors.indexOf tutor) d =
        Except.ok (assignedUnder sc EITHER (sc.tutors.indexOf tutor) d)
      rw [eitherEqOne_optimal sc hst hlen, assignedUnder_e]

/-- Under passing validations, `get_day_schedule` is the ordinary filtered
comprehension over the tutor indices. -/
theorem getDaySchedule_eq {τ δ : Type} [DecidableEq τ] [DecidableEq δ] [Inhabited τ]
    (sc : ScheduleState τ δ) (mode : Int)
    (hm : mode = IN_PERSON ∨ mode = VIRTUAL ∨ mode = EITHER)
    (day : δ) (hd : day ∈ sc.days) (hst : sc.status = MStatus.optimal) :
    getDaySchedule sc mode day = Except.ok
      (((List.range sc.tutors.length).filter
          (fun t => assignedUnder sc mode t (sc.days.indexOf day))).map
        (fun t => sc.tutors.getD t default)) := by
  have hlen : 0 < sc.days.length := List.length_pos_of_mem hd
  have hsf : scheduleFound sc = true := by simp [scheduleFound, hst]
  rw [getDaySchedule, if_neg (by simp [hm]), if_neg (by simp [hd]),
    if_neg (by simp [hsf])]
  rcases hm with h | h | h
  · subst h
    rw [if_pos rfl,
      filterE_congr _ (fun t => assignedUnder sc IN_PERSON t (sc.days.indexOf day)) _
        (fun t htm => ?_)]
    · rfl
    · show engineEqOne sc IN_PERSON t (sc.days.indexOf day) =
        Except.ok (assignedUnder sc IN_PERSON t (sc.days.indexOf day))
      rw [engineEqOne_optimal sc IN_PERSON (Or.inl rfl) hst hlen, assignedUnder_ip]
      rfl
  · subst h
    rw [if_neg (by decide), if_pos rfl,
      filterE_congr _ (fun t => assignedUnder sc VIRTUAL t (sc.days.indexOf day)) _
        (fun t htm => ?_)]
    · rfl
    · show engineEqOne sc VIRTUAL t (sc.days.indexOf day) =
        Except.ok (assignedUnder sc VIRTUAL t (sc.days.indexOf day))
      rw [engineEqOne_optimal sc VIRTUAL (Or.inr rfl) hst hlen, assignedUnder_v]
      rfl
  · subst h
    rw [if_neg (by decide), if_neg (by decide),
      filterE_congr _ (fun t => assignedUnder sc EITHER t (sc.days.indexOf day)) _
        (fun t htm => ?_)]
    · rfl
    · show eitherEqOne sc t (sc.days.indexOf day) =
        Except.ok (assignedUnder sc EITHER t (sc.days.indexOf day))
      rw [eitherEqOne_optimal sc hst hlen, assignedUnder_e]

/-- A comprehension `[l[i] for i in range(len(l)) if q i]` is a subsequence
of `l` in original order. -/
theorem filterRangeMap_sublist {α : Type} [Inhabited α] (l : List α) (q : Nat → Bool) :
    (((List.range l.length).filter q).map (fun i => l.getD i default)).Sublist l := by
  induction l generalizing q with
  | nil => simp
  | cons a l ih =>
    rw [List.length_cons, List.range_succ_eq_map, List.filter_cons]
    by_cases h0 : q 0
    · rw [if_pos h0, List.map_cons, List.filter_map, List.map_map]
      have harr : ((List.range l.length).filter (q ∘ Nat.succ)).map
          ((fun i => (a :: l).getD i default) ∘ Nat.succ) =
          ((List.range l.length).filter (q ∘ Nat.succ)).map (fun i => l.getD i default) :=
        List.map_congr_left (fun i _ => rfl)
      rw [harr]
      exact List.Sublist.cons₂ a (ih (q ∘ Nat.succ))
    · rw [if_neg h0, List.filter_map, List.map_map]
      have harr : ((List.range l.length).filter (q ∘ Nat.succ)).map
          ((fun i => (a :: l).getD i default) ∘ Nat.succ) =
          ((List.range l.length).filter (q ∘ Nat.succ)).map (fun i => l.getD i default) :=
        List.map_congr_left (fun i _ => rfl)
      rw [harr]
      exact List.Sublist.cons a (ih (q ∘ Nat.succ))

/-- Membership in such a comprehension over a duplicate-free list holds
exactly for elements whose (unique) index satisfies the condition. -/
theorem mem_filterRangeMap {α : Type} [Inhabited α] [DecidableEq α]
    {l : List α} (hnd : l.Nodup) (q : Nat → Bool) (x : α) :
    (x ∈ ((List.range l.length).filter q).map (fun i => l.getD i default)) ↔
      (x ∈ l ∧ q (l.indexOf x) = true) := by
  simp only [List.mem_map, List.mem_filter, List.mem_range]
  constructor
  · rintro ⟨i, ⟨hi, hq⟩, hget⟩
    rw [List.getD_eq_getElem l default hi] at hget
    subst hget
    exact ⟨List.getElem_mem hi, by rw [List.indexOf_getElem hnd i hi]; exact hq⟩
  · rintro ⟨hx, hq⟩
    have hi : l.indexOf x < l.length := List.indexOf_lt_length.mpr hx
    exact ⟨l.indexOf x, ⟨hi, hq⟩,
      by rw [List.getD_eq_getElem l default hi, List.getElem_indexOf hi]⟩

/-- C4: `check`, `get_tutor_schedule` and `get_day_schedule` raise exactly
when the mode is not one of the three accepted values, a given tutor or day
identifier is unrecognized, or no optimal result exists; `schedule_found` is
a total function that returns true exactly when the status is OPTIMAL. -/
theorem query_error_conditions {τ δ : Type} [DecidableEq τ] [DecidableEq δ]
    [Inhabited τ] [Inhabited δ]
    (sc : ScheduleState τ δ) (mode : Int) (tutor : τ) (day : δ) :
    (scheduleFound sc = true ↔ sc.status = MStatus.optimal) ∧
    ((check sc mode tutor day).isOk = true ↔
      ((mode = IN_PERSON ∨ mode = VIRTUAL ∨ mode = EITHER) ∧ tutor ∈ sc.tutors ∧
        day ∈ sc.days ∧ sc.status = MStatus.optimal)) ∧
    ((getTutorSchedule sc mode tutor).isOk = true ↔
      ((mode = IN_PERSON ∨ mode = VIRTUAL ∨ mode = EITHER) ∧ tutor ∈ sc.tutors ∧
        sc.status = MStatus.optimal)) ∧
    ((getDaySchedule sc mode day).isOk = true ↔
      ((mode = IN_PERSON ∨ mode = VIRTUAL ∨ mode = EITHER) ∧ day ∈ sc.days ∧
        sc.status = MStatus.optimal)) := by
  refine ⟨by simp [scheduleFound], ?_, ?_, ?_⟩
  · by_cases hm : mode = IN_PERSON ∨ mode = VIRTUAL ∨ mode = EITHER
    · by_cases ht : tutor ∈ sc.tutors
      · by_cases hd : day ∈ sc.days
        · by_cases hst : sc.status = MStatus.optimal
          · rw [check_eq_of_valid sc mode hm tutor ht day hd hst]
            simp [Except.isOk, Except.toBool, hm, ht, hd, hst]
          · rw [check, if_neg (by simp [hm]), if_neg (by simp [ht]),
              if_neg (by simp [hd]), if_pos (by simp [scheduleFound, hst])]
            simp [Except.isOk, Except.toBool, hst]
        · rw [check, if_neg (by simp [hm]), if_neg (by simp [ht]), if_pos (by simp [hd])]
          simp [Except.isOk, Except.toBool, hd]
      · rw [check, if_neg (by simp [hm]), if_pos (by simp [ht])]
        simp [Except.isOk, Except.toBool, ht]
    · rw [check, if_pos (by simp [hm])]
      simp [Except.isOk, Except.toBool, hm]
  · by_cases hm : mode = IN_PERSON ∨ mode = VIRTUAL ∨ mode = EITHER
    · by_cases ht : tutor ∈ sc.tutors
      · by_cases hst : sc.status = MStatus.optimal
        · rw [getTutorSchedule_eq sc mode hm tutor ht hst]
          simp [Except.isOk, Except.toBool, hm, ht, hst]
        · rw [getTutorSchedule, if_neg (by simp [hm]), if_neg (by simp [ht]),
            if_pos (by simp [scheduleFound, hst])]
          simp [Except.isOk, Except.toBool, hst]
      · rw [getTutorSchedule, if_neg (by simp [hm]), if_pos (by simp [ht])]
        simp [Except.isOk, Except.toBool, ht]
    · rw [getTutorSchedule, if_pos (by simp [hm])]
      simp [Except.isOk, Except.toBool, hm]
  · by_cases hm : mode = IN_PERSON ∨ mode = VIRTUAL ∨ mode = EITHER
    · by_cases hd : day ∈ sc.days
      · by_cases hst : sc.status = MStatus.optimal
        · rw [getDaySchedule_eq sc mode hm day hd hst]
          simp [Except.isOk, Except.toBool, hm, hd, hst]
        · rw [getDaySchedule, if_neg (by simp [hm]), if_neg (by simp [hd]),
            if_pos (by simp [scheduleFound, hst])]
          simp [Except.isOk, Except.toBool, hst]
      · rw [getDaySchedule, if_neg (by simp [hm]), if_pos (by simp [hd])]
        simp [Except.isOk, Except.toBool, hd]
    · rw [getDaySchedule, if_pos (by simp [hm])]
      simp [Except.isOk, Except.toBool, hm]

/-- C4 sanity witness at the concrete optimal facade state `s0`. -/
theorem query_error_conditions_witness :
    (check s0 0 0 10).isOk = true ∧ (check s0 2 0 99).isOk = false :=
  ⟨(query_error_conditions s0 0 0 10).2.1.mpr
      (by refine ⟨Or.inl rfl, ?_, ?_, rfl⟩ <;> decide),
    by
      have h := (query_error_conditions s0 2 0 99).2.1
      cases hv : (check s0 2 0 99).isOk
      · rfl
      · exact absurd ((h.mp hv).2.2.1) (by decide)⟩

/-- C5: infeasibility is reported, not thrown: the post-solve status is
OPTIMAL exactly when the solver outcome is `GRB.OPTIMAL`, every other outcome
yields INFEASIBLE, and in any non-optimal state `schedule_found` returns
false (without failing) while `check`, `get_tutor_schedule` and
`get_day_schedule` fail with the no-schedule usage error. -/
theorem infeasibility_reported {τ δ : Type} [DecidableEq τ] [DecidableEq δ]
    [Inhabited τ] [Inhabited δ] (g : GStatus) (sc : ScheduleState τ δ) :
    (solveStatus g = MStatus.optimal ↔ g = GStatus.optimal) ∧
    (g ≠ GStatus.optimal → solveStatus g = MStatus.infeasible) ∧
    (sc.status ≠ MStatus.optimal →
      scheduleFound sc = false ∧
      (∀ mode tutor day, (mode = IN_PERSON ∨ mode = VIRTUAL ∨ mode = EITHER) →
        tutor ∈ sc.tutors → day ∈ sc.days →
        check sc mode tutor day = Except.error QErr.noSchedule) ∧
      (∀ mode tutor, (mode = IN_PERSON ∨ mode = VIRTUAL ∨ mode = EITHER) →
        tutor ∈ sc.tutors →
        getTutorSchedule sc mode tutor = Except.error QErr.noSchedule) ∧
      (∀ mode day, (mode = IN_PERSON ∨ mode = VIRTUAL ∨ mode = EITHER) →
        day ∈ sc.days →
        getDaySchedule sc mode day = Except.error QErr.noSchedule)) := by
  refine ⟨?_, ?_, ?_⟩
  · rw [solveStatus]
    by_cases hg : g = GStatus.optimal
    · rw [if_pos hg]
      simp [hg]
    · rw [if_neg hg]
      simp [hg]
  · intro hg
    rw [solveStatus, if_neg hg]
  · intro hst
    have hsf : scheduleFound sc = false := by
      simp [scheduleFound, hst]
    refine ⟨hsf, ?_, ?_, ?_⟩
    · intro mode tutor day hm ht hd
      rw [check, if_neg (by simp [hm]), if_neg (by simp [ht]), if_neg (by simp [hd]),
        if_pos (by simp [hsf])]
    · intro mode tutor hm ht
      rw [getTutorSchedule, if_neg (by simp [hm]), if_neg (by simp [ht]),
        if_pos (by simp [hsf])]
    · intro mode day hm hd
      rw [getDaySchedule, if_neg (by simp [hm]), if_neg (by simp [hd]),
        if_pos (by simp [hsf])]

/-- C5 witnessed at the solver outcome `infeasible` and the concrete
infeasible facade state `sInf`. -/
theorem infeasibility_reported_witness :
    solveStatus GStatus.infeasible = MStatus.infeasible ∧
    scheduleFound sInf = false ∧
    check sInf 0 0 10 = Except.error QErr.noSchedule :=
  ⟨(infeasibility_reported GStatus.infeasible sInf).2.1 (by decide),
    ((infeasibility_reported GStatus.infeasible sInf).2.2 (by decide)).1,
    ((infeasibility_reported GStatus.infeasible sInf).2.2 (by decide)).2.1 0 0 10
      (Or.inl rfl) (by decide) (by decide)⟩

/-- C7: with an optimal result and a recognized tutor, membership in
`get_tutor_schedule(EITHER, tutor)` coincides, day by day, with
`check(EITHER, tutor, day)` returning true. -/
theorem either_schedule_roundtrip {τ δ : Type} [DecidableEq τ] [DecidableEq δ]
    [Inhabited δ] (sc : ScheduleState τ δ) (hdn : sc.days.Nodup)
    (hst : sc.status = MStatus.optimal) (tutor : τ) (ht : tutor ∈ sc.tutors) :
    ∃ L, getTutorSchedule sc EITHER tutor = Except.ok L ∧
      ∀ day, (day ∈ L ↔ check sc EITHER tutor day = Except.ok true) := by
  have hm : EITHER = IN_PERSON ∨ EITHER = VIRTUAL ∨ EITHER = EITHER :=
    Or.inr (Or.inr rfl)
  refine ⟨_, getTutorSchedule_eq sc EITHER hm tutor ht hst, ?_⟩
  intro day
  rw [mem_filterRangeMap hdn _ day]
  constructor
  · rintro ⟨hd, hq⟩
    rw [check_eq_of_valid sc EITHER hm tutor ht day hd hst, hq]
  · intro hc
    by_cases hd : day ∈ sc.days
    · refine ⟨hd, ?_⟩
      rw [check_eq_of_valid sc EITHER hm tutor ht day hd hst] at hc
      exact Except.ok.inj hc
    · rw [check, if_neg (by simp [hm]), if_neg (by simp [ht]),
        if_pos (by simp [hd])] at hc
      exact absurd hc (by simp)

/-- C7 witnessed at the concrete optimal facade state `s0`. -/
theorem either_schedule_roundtrip_witness :
    ∃ L, getTutorSchedule s0 EITHER 0 = Except.ok L ∧
      (10 ∈ L ↔ check s0 EITHER 0 10 = Except.ok true) := by
  obtain ⟨L, h1, h2⟩ := either_schedule_roundtrip s0 (by decide) rfl 0 (by decide)
  exact ⟨L, h1, h2 10⟩

/-- C8: with an optimal result, `get_tutor_schedule(mode, tutor)` is the
ordered subsequence of the facade's day list holding exactly the days on
which the tutor is assigned under the given mode (at least one mode for
EITHER), and `get_day_schedule(mode, day)` is symmetrically the ordered
subsequence of the facade's tutor list holding exactly the assigned
tutors. -/
theorem schedules_are_ordered_subsequences {τ δ : Type} [DecidableEq τ]
    [DecidableEq δ] [Inhabited τ] [Inhabited δ] (sc : ScheduleState τ δ)
    (htn : sc.tutors.Nodup) (hdn : sc.days.Nodup)
    (hst : sc.status = MStatus.optimal) (mode : Int)
    (hm : mode = IN_PERSON ∨ mode = VIRTUAL ∨ mode = EITHER) :
    (∀ tutor ∈ sc.tutors, ∃ L, getTutorSchedule sc mode tutor = Except.ok L ∧
      L.Sublist sc.days ∧
      (∀ day, day ∈ L ↔ (day ∈ sc.days ∧
        assignedUnder sc mode (sc.tutors.indexOf tutor) (sc.days.indexOf day) = true))) ∧
    (∀ day ∈ sc.days, ∃ L, getDaySchedule sc mode day = Except.ok L ∧
      L.Sublist sc.tutors ∧
      (∀ tutor, tutor ∈ L ↔ (tutor ∈ sc.tutors ∧
        assignedUnder sc mode (sc.tutors.indexOf tutor) (sc.days.indexOf day) = true))) := by
  constructor
  · intro tutor ht
    exact ⟨_, getTutorSchedule_eq sc mode hm tutor ht hst,
      filterRangeMap_sublist sc.days _, fun day => mem_filterRangeMap hdn _ day⟩
  · intro day hd
    exact ⟨_, getDaySchedule_eq sc mode hm day hd hst,
      filterRangeMap_sublist sc.tutors _, fun tutor => mem_filterRangeMap htn _ tutor⟩

/-- C8 witnessed at the concrete optimal facade state `s0`. -/
theorem schedules_are_ordered_subsequences_witness :
    ∃ L, getTutorSchedule s0 EITHER 0 = Except.ok L ∧ L.Sublist s0.days := by
  obtain ⟨L, h1, h2, h3⟩ :=
    (schedules_are_ordered_subsequences s0 (by decide) (by decide) rfl EITHER
      (Or.inr (Or.inr rfl))).1 0 (by decide)
  exact ⟨L, h1, h2⟩

/-- A list comprehension whose condition always succeeds produces a result. -/
theorem filterE_isOk {ε α : Type} (p : α → Except ε Bool) (l : List α)
    (h : ∀ x ∈ l, ∃ b, p x = Except.ok b) : ∃ L, filterE p l = Except.ok L := by
  induction l with
  | nil => exact ⟨[], rfl⟩
  | cons x xs ih =>
    obtain ⟨b, hb⟩ := h x (List.mem_cons_self x xs)
    obtain ⟨L, hL⟩ := ih (fun y hy => h y (List.mem_cons_of_mem x hy))
    rw [filterE, hb, bindOk, hL, bindOk]
    exact ⟨_, rfl⟩

/-- `get_tutor_schedule` never surfaces the engine assertion failure. -/
theorem getTutorSchedule_no_assert {τ δ : Type} [DecidableEq τ] [Inhabited δ]
    (sc : ScheduleState τ δ) (mode : Int) (tutor : τ) :
    getTutorSchedule sc mode tutor ≠ Except.error QErr.engineAssert := by
  rw [getTutorSchedule]
  by_cases hm : mode = IN_PERSON ∨ mode = VIRTUAL ∨ mode = EITHER
  · rw [if_neg (by simp [hm])]
    by_cases ht : tutor ∈ sc.tutors
    · rw [if_neg (by simp [ht])]
      by_cases hsf : scheduleFound sc = true
      · rw [if_neg (by simp [hsf])]
        by_cases h0 : mode = IN_PERSON
        · rw [if_pos h0]
          obtain ⟨L, hL⟩ := filterE_isOk _ _
            (fun d _ => engineEqOne_isOk sc IN_PERSON (Or.inl rfl) _ d)
          rw [hL]
          simp [Except.map]
        · rw [if_neg h0]
          by_cases h1 : mode = VIRTUAL
          · rw [if_pos h1]
            obtain ⟨L, hL⟩ := filterE_isOk _ _
              (fun d _ => engineEqOne_isOk sc VIRTUAL (Or.inr rfl) _ d)
            rw [hL]
            simp [Except.map]
          · rw [if_neg h1]
            obtain ⟨L, hL⟩ := filterE_isOk _ _
              (fun d _ => eitherEqOne_isOk sc _ d)
            rw [hL]
            simp [Except.map]
      · rw [if_pos hsf]
        simp
    · rw [if_pos (by simp [ht])]
      simp
  · rw [if_pos (by simp [hm])]
    simp

/-- `get_day_schedule` never surfaces the engine assertion failure. -/
theorem getDaySchedule_no_assert {τ δ : Type} [Inhabited τ] [DecidableEq δ]
    (sc : ScheduleState τ δ) (mode : Int) (day : δ) :
    getDaySchedule sc mode day ≠ Except.error QErr.engineAssert := by
  rw [getDaySchedule]
  by_cases hm : mode = IN_PERSON ∨ mode = VIRTUAL ∨ mode = EITHER
  · rw [if_neg (by simp [hm])]
    by_cases hd : day ∈ sc.days
    · rw [if_neg (by simp [hd])]
      by_cases hsf : scheduleFound sc = true
      · rw [if_neg (by simp [hsf])]
        by_cases h0 : mode = IN_PERSON
        · rw [if_pos h0]
          obtain ⟨L, hL⟩ := filterE_isOk _ _
            (fun t _ => engineEqOne_isOk sc IN_PERSON (Or.inl rfl) t _)
          rw [hL]
          simp [Except.map]
        · rw [if_neg h0]
          by_cases h1 : mode = VIRTUAL
          · rw [if_pos h1]
            obtain ⟨L, hL⟩ := filterE_isOk _ _
              (fun t _ => engineEqOne_isOk sc VIRTUAL (Or.inr rfl) t _)
            rw [hL]
            simp [Except.map]
          · rw [if_neg h1]
            obtain ⟨L, hL⟩ := filterE_isOk _ _
              (fun t _ => eitherEqOne_isOk sc t _)
            rw [hL]
            simp [Except.map]
      · rw [if_pos hsf]
        simp
    · rw [if_pos (by simp [hd])]
      simp
  · rw [if_pos (by simp [hm])]
    simp

/-- `check` never surfaces the engine assertion failure. -/
theorem check_no_assert {τ δ : Type} [DecidableEq τ] [DecidableEq δ]
    (sc : ScheduleState τ δ) (mode : Int) (tutor : τ) (day : δ) :
    check sc mode tutor day ≠ Except.error QErr.engineAssert := by
  rw [check]
  by_cases hm : mode = IN_PERSON ∨ mode = VIRTUAL ∨ mode = EITHER
  · rw [if_neg (by simp [hm])]
    by_cases ht : tutor ∈ sc.tutors
    · rw [if_neg (by simp [ht])]
      by_cases hd : day ∈ sc.days
      · rw [if_neg (by simp [hd])]
        by_cases hsf : scheduleFound sc = true
        · rw [if_neg (by simp [hsf])]
          by_cases h0 : mode = IN_PERSON
          · rw [if_pos h0]
            obtain ⟨b, hb⟩ := engineEqOne_isOk sc IN_PERSON (Or.inl rfl)
              (sc.tutors.indexOf tutor) (sc.days.indexOf day)
            rw [hb]
            simp
          · rw [if_neg h0]
            by_cases h1 : mode = VIRTUAL
            · rw [if_pos h1]
              obtain ⟨b, hb⟩ := engineEqOne_isOk sc VIRTUAL (Or.inr rfl)
                (sc.tutors.indexOf tutor) (sc.days.indexOf day)
              rw [hb]
              simp
            · rw [if_neg h1]
              obtain ⟨b, hb⟩ := eitherEqOne_isOk sc
                (sc.tutors.indexOf tutor) (sc.days.indexOf day)
              rw [hb]
              simp
        · rw [if_pos hsf]
          simp
      · rw [if_pos (by simp [hd])]
        simp
    · rw [if_pos (by simp [ht])]
      simp
  · rw [if_pos (by simp [hm])]
    simp

/-- The facade's either-mode `check` is the disjunction of its two
single-mode `check` calls (the validation outcomes coincide, so the equation
holds in every state). -/
theorem check_either_disjunction {τ δ : Type} [DecidableEq τ] [DecidableEq δ]
    (sc : ScheduleState τ δ) (tutor : τ) (day : δ) :
    check sc EITHER tutor day = (check sc IN_PERSON tutor day).bind
      (fun b1 => (check sc VIRTUAL tutor day).map (fun b2 => b1 || b2)) := by
  have hmE : EITHER = IN_PERSON ∨ EITHER = VIRTUAL ∨ EITHER = EITHER :=
    Or.inr (Or.inr rfl)
  have hm0 : IN_PERSON = IN_PERSON ∨ IN_PERSON = VIRTUAL ∨ IN_PERSON = EITHER :=
    Or.inl rfl
  have hm1 : VIRTUAL = IN_PERSON ∨ VIRTUAL = VIRTUAL ∨ VIRTUAL = EITHER :=
    Or.inr (Or.inl rfl)
  by_cases ht : tutor ∈ sc.tutors
  · by_cases hd : day ∈ sc.days
    · by_cases hst : sc.status = MStatus.optimal
      · rw [check_eq_of_valid sc EITHER hmE tutor ht day hd hst,
          check_eq_of_valid sc IN_PERSON hm0 tutor ht day hd hst,
          check_eq_of_valid sc VIRTUAL hm1 tutor ht day hd hst,
          assignedUnder_e, assignedUnder_ip, assignedUnder_v]
        rfl
      · rw [check, if_neg (by simp [hmE]), if_neg (by simp [ht]),
          if_neg (by simp [hd]), if_pos (by simp [scheduleFound, hst]),
          check, if_neg (by simp [hm0]), if_neg (by simp [ht]),
          if_neg (by simp [hd]), if_pos (by simp [scheduleFound, hst])]
        rfl
    · rw [check, if_neg (by simp [hmE]), if_neg (by simp [ht]), if_pos (by simp [hd]),
        check, if_neg (by simp [hm0]), if_neg (by simp [ht]), if_pos (by simp [hd])]
      rfl
  · rw [check, if_neg (by simp [hmE]), if_pos (by simp [ht]),
      check, if_neg (by simp [hm0]), if_pos (by simp [ht])]
    rfl

/-- C10: the engine indexer accepts only the modes IN_PERSON (0) and
VIRTUAL (1) and fails its assertion for any other value, including the
facade-level EITHER (2); the facade never forwards EITHER to the engine -
its either-mode `check` is the disjunction of the two single-mode lookups
and no facade query ever surfaces the engine assertion failure; while
INFEASIBLE the indexer returns `None` for every selector pair. -/
theorem engine_mode_assertion {τ δ : Type} [DecidableEq τ] [DecidableEq δ]
    [Inhabited τ] [Inhabited δ] (st : MState) (sc : ScheduleState τ δ)
    (mode : Int) (ts ds : Sel) (tutor : τ) (day : δ) :
    EITHER = 2 ∧
    ((st.getitem mode ts ds).isOk = true ↔ (mode = IN_PERSON ∨ mode = VIRTUAL)) ∧
    st.getitem EITHER ts ds = Except.error () ∧
    check sc mode tutor day ≠ Except.error QErr.engineAssert ∧
    getTutorSchedule sc mode tutor ≠ Except.error QErr.engineAssert ∧
    getDaySchedule sc mode day ≠ Except.error QErr.engineAssert ∧
    check sc EITHER tutor day = (check sc IN_PERSON tutor day).bind
      (fun b1 => (check sc VIRTUAL tutor day).map (fun b2 => b1 || b2)) ∧
    (st.status = MStatus.infeasible → (mode = IN_PERSON ∨ mode = VIRTUAL) →
      st.getitem mode ts ds = Except.ok none) :=
  ⟨by decide, getitem_isOk_iff st mode ts ds,
    by rw [MState.getitem, if_neg (by decide)],
    check_no_assert sc mode tutor day,
    getTutorSchedule_no_assert sc mode tutor,
    getDaySchedule_no_assert sc mode day,
    check_either_disjunction sc tutor day,
    fun hinf hm => getitem_infeasible st mode hm hinf ts ds⟩

/-- C10 witnessed at the concrete infeasible facade state `sInf`. -/
theorem engine_mode_assertion_witness :
    sInf.model.getitem EITHER Sel.all Sel.all = Except.error () ∧
    sInf.model.getitem IN_PERSON Sel.all Sel.all = Except.ok none :=
  ⟨(engine_mode_assertion sInf.model sInf EITHER Sel.all Sel.all 0 10).2.2.1,
    (engine_mode_assertion sInf.model sInf IN_PERSON Sel.all Sel.all 0 10).2.2.2.2.2.2.2
      rfl (Or.inl rfl)⟩

/-- Characterization of a facade construction that runs without a failed
assertion, in domain terms. -/
theorem scheduleConstructOk_iff {τ δ : Type} [DecidableEq τ] [DecidableEq δ]
    (si : SchedInput τ δ) :
    scheduleConstructOk si = true ↔
      (si.tutors.Nodup ∧ si.days.Nodup ∧
       0 < si.tutors.length ∧ 0 < si.days.length ∧
       si.min_tutors_ip ≥ 0 ∧ si.min_tutors_v ≥ 0 ∧
       si.min_tutor_shifts ≥ 0 ∧ si.min_tutor_ip_shifts ≥ 0 ∧
       (∀ t ∈ si.tutors, si.max_shifts_by_tutor t ≥ 0) ∧
       (∀ t ∈ si.tutors, ∀ d ∈ si.days,
         si.availability t d = UNAVAILABLE ∨ si.availability t d = NOT_PREFERRED ∨
           si.availability t d = PREFERRED) ∧
       (∀ t ∈ si.tutors, si.mode_preference t = PREFER_VIRTUAL ∨
         si.mode_preference t = NO_PREFERENCE ∨
         si.mode_preference t = PREFER_IN_PERSON) ∧
       (∀ d ∈ si.days, 0 ≤ si.target_ip_fractions d) ∧
       (∀ d ∈ si.days, 0 ≤ si.target_v_fractions d) ∧
       abs (1 - (si.days.map si.target_ip_fractions).sum
         - (si.days.map si.target_v_fractions).sum) < epsilon ∧
       si.SHIFTS_weight ≥ 0 ∧ si.ALIGN_weight ≥ 0 ∧ si.DAY_PREF_weight ≥ 0 ∧
       si.MODE_PREF_weight ≥ 0) := by
  simp only [scheduleConstructOk, modelValid, validDims, validConstraintArgs,
    validObjectiveArgs, SchedInput.toModelInput, Bool.and_eq_true,
    decide_eq_true_eq, List.all_eq_true, List.forall_mem_map, List.length_map]
  tauto

/-- C6: construction-time validation rejects a repeated tutor identifier, an
availability entry outside the three levels, a combined target-fraction sum
deviating from 1 by more than the 10^-3 tolerance, and a negative weight;
conversely, an input whose combined fraction sum is within the tolerance and
satisfies the remaining shape/range constraints passes validation. -/
theorem construction_validation {τ δ : Type} [DecidableEq τ] [DecidableEq δ]
    (si : SchedInput τ δ) :
    (¬ si.tutors.Nodup → scheduleConstructOk si = false) ∧
    ((∃ t ∈ si.tutors, ∃ d ∈ si.days,
        ¬(si.availability t d = UNAVAILABLE ∨ si.availability t d = NOT_PREFERRED ∨
          si.availability t d = PREFERRED)) → scheduleConstructOk si = false) ∧
    (epsilon < abs (1 - (si.days.map si.target_ip_fractions).sum
        - (si.days.map si.target_v_fractions).sum) →
      scheduleConstructOk si = false) ∧
    ((si.SHIFTS_weight < 0 ∨ si.ALIGN_weight < 0 ∨ si.DAY_PREF_weight < 0 ∨
        si.MODE_PREF_weight < 0) → scheduleConstructOk si = false) ∧
    ((si.tutors.Nodup ∧ si.days.Nodup ∧
       0 < si.tutors.length ∧ 0 < si.days.length ∧
       si.min_tutors_ip ≥ 0 ∧ si.min_tutors_v ≥ 0 ∧
       si.min_tutor_shifts ≥ 0 ∧ si.min_tutor_ip_shifts ≥ 0 ∧
       (∀ t ∈ si.tutors, si.max_shifts_by_tutor t ≥ 0) ∧
       (∀ t ∈ si.tutors, ∀ d ∈ si.days,
         si.availability t d = UNAVAILABLE ∨ si.availability t d = NOT_PREFERRED ∨
           si.availability t d = PREFERRED) ∧
       (∀ t ∈ si.tutors, si.mode_preference t = PREFER_VIRTUAL ∨
         si.mode_preference t = NO_PREFERENCE ∨
         si.mode_preference t = PREFER_IN_PERSON) ∧
       (∀ d ∈ si.days, 0 ≤ si.target_ip_fractions d) ∧
       (∀ d ∈ si.days, 0 ≤ si.target_v_fractions d) ∧
       abs (1 - (si.days.map si.target_ip_fractions).sum
         - (si.days.map si.target_v_fractions).sum) < epsilon ∧
       si.SHIFTS_weight ≥ 0 ∧ si.ALIGN_weight ≥ 0 ∧ si.DAY_PREF_weight ≥ 0 ∧
       si.MODE_PREF_weight ≥ 0) → scheduleConstructOk si = true) := by
  refine ⟨?_, ?_, ?_, ?_, fun h => (scheduleConstructOk_iff si).mpr h⟩
  · intro h
    cases hok : scheduleConstructOk si
    · rfl
    · exact absurd ((scheduleConstructOk_iff si).mp hok).1 h
  · rintro ⟨t, ht, d, hd, hbad⟩
    cases hok : scheduleConstructOk si
    · rfl
    · exact absurd (((scheduleConstructOk_iff si).mp hok).2.2.2.2.2.2.2.2.2.1 t ht d hd) hbad
  · intro h
    cases hok : scheduleConstructOk si
    · rfl
    · have hlt := ((scheduleConstructOk_iff si).mp hok).2.2.2.2.2.2.2.2.2.2.2.2.2.1
      exact absurd hlt (not_lt.mpr (le_of_lt h))
  · intro h
    cases hok : scheduleConstructOk si
    · rfl
    · obtain ⟨-, -, -, -, -, -, -, -, -, -, -, -, -, -, hw1, hw2, hw3, hw4⟩ :=
        (scheduleConstructOk_iff si).mp hok
      rcases h with h | h | h | h
      · exact absurd hw1 (not_le.mpr h)
      · exact absurd hw2 (not_le.mpr h)
      · exact absurd hw3 (not_le.mpr h)
      · exact absurd hw4 (not_le.mpr h)

/-- C6 witnessed: the concrete well-formed input `si0` passes validation and
the duplicated-tutor input `si1` is rejected. -/
theorem construction_validation_witness :
    scheduleConstructOk si0 = true ∧ scheduleConstructOk si1 = false :=
  ⟨(construction_validation si0).2.2.2.2
      ⟨by decide, by decide, by decide, by decide, by decide, by decide,
        by decide, by decide, by decide,
        fun t ht d hd => Or.inr (Or.inr rfl),
        fun t ht => Or.inr (Or.inl rfl),
        by norm_num [si0], by norm_num [si0],
        by norm_num [si0, epsilon], by decide, by decide, by decide, by decide⟩,
    (construction_validation si1).1 (by decide)⟩

end Clue
